import Mathlib

/-!
# CnnLidarDetector: inference wrapper of `cnn_lidar_detector.cpp`

A shallow embedding of `CnnLidarDetector::GetNetworkResults`, `PreProcess` and
`WrapInputLayer`.

* Scores are exact rationals: every finite `float` is a rational, rounding is not
  modelled, and NaN / infinities are outside the model.
* A Caffe blob is its shape vector and its row-major cpu buffer.
* A `cv::Mat` header created over a raw pointer is a view into that buffer: it owns no
  pixels, so writing through it writes the buffer.
-/

namespace CnnLidar

/-! ## Outcome of a call -/

/-- How a member function ends: it returns, a glog `CHECK` aborts the process, or a
C++ exception (`std::vector::at`, `cv::Exception`) leaves it. -/
inductive Status where
  | returned
  | fatal
  | thrown
deriving DecidableEq, Repr

/-! ## Caffe blobs -/

/-- The part of `caffe::Blob<float>` the wrapper touches: `shape_` and the cpu data. -/
structure Blob where
  shape : List Nat
  data : List ℚ
deriving DecidableEq

/-- The accessor `Blob::shape(index)`: a `CHECK` fails (`none`) when the blob has no such
axis. -/
def Blob.shapeAt (b : Blob) (index : Nat) : Option Nat :=
  b.shape[index]?

/-! ## Images -/

/-- A pixel of a `CV_8UC3` image, `cv::Vec3b`, in B, G, R order. -/
structure Vec3b where
  b : Nat
  g : Nat
  r : Nat
deriving DecidableEq, Repr

/-- Pixel `cv::Scalar(0,0,0)`. -/
def black : Vec3b := ⟨0, 0, 0⟩
/-- Pixel `cv::Vec3b(0, 0, 255)`. -/
def red : Vec3b := ⟨0, 0, 255⟩
/-- Pixel `cv::Vec3b(0, 255, 0)`. -/
def green : Vec3b := ⟨0, 255, 0⟩
/-- Pixel `cv::Vec3b(255, 0, 0)`. -/
def blue : Vec3b := ⟨255, 0, 0⟩

/-- A `CV_8UC3` matrix: its header sizes and its pixels, one list per row. -/
structure Mat8UC3 where
  rows : Nat
  cols : Nat
  px : List (List Vec3b)
deriving DecidableEq

/-- Pixel access `m.at<cv::Vec3b>(r, c)`; `none` outside the stored pixels. -/
def Mat8UC3.at? (m : Mat8UC3) (r c : Nat) : Option Vec3b :=
  match m.px[r]? with
  | none => none
  | some row => row[c]?

/-- The call `cv::flip(src, dst, -1)`: a negative flip code flips around both axes, so
the rows come in reverse order and each row is reversed; the size is kept. -/
def flip (src : Mat8UC3) : Mat8UC3 :=
  { rows := src.rows, cols := src.cols, px := (src.px.map List.reverse).reverse }

/-! ## `cv::normalize` with `NORM_MINMAX` -/

/-- Smallest element (`minMaxIdx`), 0 for no elements. -/
def listMin : List ℚ → ℚ
  | [] => 0
  | x :: xs => xs.foldl min x

/-- Largest element (`minMaxIdx`), 0 for no elements. -/
def listMax : List ℚ → ℚ
  | [] => 0
  | x :: xs => xs.foldl max x

/-- The library routine `cv::normalize(src, dst, a, b, cv::NORM_MINMAX)` on the pixels
of a single-channel image. OpenCV computes
`dmin = MIN(a,b)`, `dmax = MAX(a,b)`,
`scale = (dmax - dmin) * (smax - smin > DBL_EPSILON ? 1/(smax - smin) : 0)`,
`shift = dmin - smin*scale` and stores `x*scale + shift` for every pixel `x`.
The comparison constant is the parameter `cutoff`; the library passes `DBL_EPSILON`. -/
def normalize (cutoff : ℚ) (src : List ℚ) (a b : ℚ) : List ℚ :=
  let smin := listMin src
  let smax := listMax src
  let dmin := min a b
  let dmax := max a b
  let scale := (dmax - dmin) * (if smax - smin > cutoff then 1 / (smax - smin) else 0)
  let shift := dmin - smin * scale
  src.map fun x => x * scale + shift

/-- The constant `DBL_EPSILON` of `<cfloat>`, 2^-52. -/
def DBL_EPSILON : ℚ := 1 / 2 ^ 52

/-- The `n` elements of a buffer that a view starting at `ptr` covers. -/
def region (mem : List ℚ) (ptr n : Nat) : List ℚ :=
  (mem.drop ptr).take n

/-- Lines 71-72: `cv::Mat channel(height, width, CV_32FC1, ptr)` wraps `n = height*width`
elements of the buffer, and `cv::normalize(channel, channel, 1, 0, cv::NORM_MINMAX)` has
the same matrix as source and destination: the destination already has the size and type
asked for, nothing is allocated, and the result overwrites the wrapped elements. -/
def normalizeInPlace (cutoff : ℚ) (mem : List ℚ) (ptr n : Nat) : List ℚ :=
  mem.take ptr ++ normalize cutoff (region mem ptr n) 1 0 ++ mem.drop (ptr + n)

/-! ## `GetNetworkResults` -/

/-- The loop of lines 69-75, `count` iterations left: each iteration wraps the channel
at `objectness_ptr`, normalises it in place, pushes the view (its start offset into the
buffer) onto `objectness_channels`, and advances the pointer by `width * height`. -/
def channelLoop (cutoff : ℚ) (width height : Nat) :
    Nat → Nat → List ℚ → List Nat → List ℚ × List Nat
  | 0, _, mem, objectness_channels => (mem, objectness_channels)
  | count + 1, objectness_ptr, mem, objectness_channels =>
      channelLoop cutoff width height count (objectness_ptr + width * height)
        (normalizeInPlace cutoff mem objectness_ptr (height * width))
        (objectness_channels ++ [objectness_ptr])

/-- The read `objectness_channels[k].at<float>(h, w)` through the `k`-th view: rows are
`width` elements apart. -/
def channelAt (mem : List ℚ) (objectness_channels : List Nat) (width k h w : Nat) : ℚ :=
  mem.getD (objectness_channels.getD k 0 + h * width + w) 0

/-- Lines 94-103 for one pixel that starts black: three independent `if`s, each
overwriting the pixel, in the order car, person, bike. -/
def classColour (car person bike score_threshold_ : ℚ) : Vec3b :=
  let p := black
  let p := if car > score_threshold_ then red else p
  let p := if person > score_threshold_ then green else p
  let p := if bike > score_threshold_ then blue else p
  p

/-- Lines 83-105: `bgr_channels`, a `height` x `width` image that starts black and whose
pixel `(h, w)` is set from the three class views at `(h, w)`. -/
def bgrImage (mem : List ℚ) (objectness_channels : List Nat) (width height : Nat)
    (score_threshold_ : ℚ) : Mat8UC3 :=
  { rows := height
    cols := width
    px := (List.range height).map fun h => (List.range width).map fun w =>
      classColour (channelAt mem objectness_channels width 1 h w)
        (channelAt mem objectness_channels width 2 h w)
        (channelAt mem objectness_channels width 3 h w) score_threshold_ }

/-- What `GetNetworkResults` reads and writes: the network's output blobs and the
caller's `out_objectness_image`. -/
structure Machine where
  output_blobs : List Blob
  out_objectness_image : Mat8UC3
deriving DecidableEq

/-- The member function `CnnLidarDetector::GetNetworkResults` (lines 53-108), as a
function from the state before the call to the way the call ends and the state then. -/
def GetNetworkResults (cutoff score_threshold_ : ℚ) (s : Machine) : Status × Machine :=
  match s.output_blobs[0]? with
  | none => (Status.thrown, s)
  | some boxes_blob =>
  match s.output_blobs[1]? with
  | none => (Status.thrown, s)
  | some objectness_blob =>
  match boxes_blob.shapeAt 1 with
  | none => (Status.fatal, s)
  | some boxes_channels =>
  if boxes_channels ≠ 24 then (Status.fatal, s) else
  match objectness_blob.shapeAt 1 with
  | none => (Status.fatal, s)
  | some objectness_count =>
  if objectness_count ≠ 4 then (Status.fatal, s) else
  match objectness_blob.shapeAt 3 with
  | none => (Status.fatal, s)
  | some width =>
  match objectness_blob.shapeAt 2 with
  | none => (Status.fatal, s)
  | some height =>
  let looped := channelLoop cutoff width height objectness_count 0 objectness_blob.data []
  let bgr_channels := bgrImage looped.1 looped.2 width height score_threshold_
  (Status.returned,
    { output_blobs := s.output_blobs.set 1 { objectness_blob with data := looped.1 }
      out_objectness_image := flip bgr_channels })

/-! ## `cv::Mat` headers over the network input -/

/-- The image size `cv::Size`. -/
structure Size where
  width : Nat
  height : Nat
deriving DecidableEq, Repr

/-- The `data` pointer of a `cv::Mat` header: null, an element offset into the cpu buffer
of the network's input blob, or the start of a buffer that `cv::Mat::create` allocated
(numbered in allocation order). -/
inductive Ptr where
  | null
  | input (offset : Nat)
  | fresh (id : Nat)
deriving DecidableEq, Repr

/-- A single-plane `cv::Mat` header: sizes, OpenCV element type code, data pointer. -/
structure Mat where
  rows : Nat
  cols : Nat
  type : Nat
  data : Ptr
deriving DecidableEq, Repr

/-- OpenCV type code of one-channel 32-bit float matrices. -/
def CV_32FC1 : Nat := 5
/-- OpenCV type code of one-channel 8-bit unsigned matrices. -/
def CV_8UC1 : Nat := 0

/-- An image handed to the detector, by value: header fields and pixel values. -/
structure Img where
  rows : Nat
  cols : Nat
  type : Nat
  pixels : List ℚ
deriving DecidableEq

/-- The buffers `PreProcess` can write: the cpu buffer of `net_->input_blobs()[0]` and
the buffers allocated by `cv::Mat::create` so far. -/
structure Memory where
  input : List ℚ
  allocated : List (List ℚ)
deriving DecidableEq

/-- Storing the elements `xs` into a buffer from element `off` on. -/
def writeAt (mem : List ℚ) (off : Nat) (xs : List ℚ) : List ℚ :=
  mem.take off ++ xs ++ mem.drop (off + xs.length)

/-- The method `src.copyTo(dst)` of `cv::Mat`: an empty source releases the destination;
otherwise `dst.create(rows, cols, type)` keeps the destination's buffer when it already
has that size and type and else points the header at a newly allocated buffer; then the
pixels are copied into the destination's buffer. -/
def copyTo (src : Img) (dst : Mat) (m : Memory) : Mat × Memory :=
  if src.rows = 0 ∨ src.cols = 0 then
    ({ rows := 0, cols := 0, type := dst.type, data := Ptr.null }, m)
  else if dst.rows = src.rows ∧ dst.cols = src.cols ∧ dst.type = src.type then
    match dst.data with
    | Ptr.input off => (dst, { m with input := writeAt m.input off src.pixels })
    | Ptr.fresh id => (dst, { m with allocated := m.allocated.set id src.pixels })
    | Ptr.null =>
        ({ dst with data := Ptr.fresh m.allocated.length },
          { m with allocated := m.allocated ++ [src.pixels] })
  else
    ({ rows := src.rows, cols := src.cols, type := src.type,
       data := Ptr.fresh m.allocated.length },
      { m with allocated := m.allocated ++ [src.pixels] })

/-- The call `cv::resize(src, dst, dsize)`: an empty source or an empty target size
raises `cv::Exception` (`none`); otherwise the result has the target size and the
source's element type. The interpolated pixel values are the parameter `interp`. -/
def resize (interp : Img → Size → List ℚ) (src : Img) (dsize : Size) : Option Img :=
  if src.rows = 0 ∨ src.cols = 0 ∨ dsize.width = 0 ∨ dsize.height = 0 then none
  else some { rows := dsize.height, cols := dsize.width, type := src.type,
              pixels := interp src dsize }

/-- Lines 116-124 for one image: resize it when `image.size() != input_geometry_`, else
use the image itself. -/
def fitToGeometry (interp : Img → Size → List ℚ) (input_geometry_ : Size) (image : Img) :
    Option Img :=
  if Size.mk image.cols image.rows ≠ input_geometry_ then resize interp image input_geometry_
  else some image

/-- What `PreProcess` reads and writes besides its two images: the vector of channel
headers and the buffers. -/
structure PreState where
  in_out_channels : List Mat
  memory : Memory
deriving DecidableEq

/-- The member function `CnnLidarDetector::PreProcess` (lines 110-134). The final `CHECK`
compares the data pointer of `in_out_channels->at(0)` with the start of the input blob's
cpu buffer. -/
def PreProcess (interp : Img → Size → List ℚ) (input_geometry_ : Size)
    (in_depth_image in_height_image : Img) (s : PreState) : Status × PreState :=
  match fitToGeometry interp input_geometry_ in_depth_image with
  | none => (Status.thrown, s)
  | some depth_resized =>
  match fitToGeometry interp input_geometry_ in_height_image with
  | none => (Status.thrown, s)
  | some height_resized =>
  match s.in_out_channels[0]? with
  | none => (Status.thrown, s)
  | some channel0 =>
  let copied0 := copyTo depth_resized channel0 s.memory
  let channels0 := s.in_out_channels.set 0 copied0.1
  match channels0[1]? with
  | none => (Status.thrown, { in_out_channels := channels0, memory := copied0.2 })
  | some channel1 =>
  let copied1 := copyTo height_resized channel1 copied0.2
  let channels1 := channels0.set 1 copied1.1
  match channels1[0]? with
  | none => (Status.thrown, { in_out_channels := channels1, memory := copied1.2 })
  | some checked =>
  if checked.data = Ptr.input 0 then
    (Status.returned, { in_out_channels := channels1, memory := copied1.2 })
  else
    (Status.fatal, { in_out_channels := channels1, memory := copied1.2 })

/-- The legacy accessors `Blob::channels()`, `height()`, `width()` are `LegacyShape(1)`,
`(2)`, `(3)`: a `CHECK` fails (`none`) for a blob of more than four axes, and an axis the
blob does not have counts as 1. -/
def Blob.legacyShape (b : Blob) (index : Nat) : Option Nat :=
  if b.shape.length ≤ 4 then some (b.shape.getD index 1) else none

/-- The loop of lines 143-148, `count` iterations left: push a `height` x `width`
`CV_32FC1` header over `input_data`, then advance `input_data` by `width * height`. -/
def wrapLoop (width height : Nat) : Nat → Nat → List Mat → List Mat
  | 0, _, in_out_channels => in_out_channels
  | count + 1, input_data, in_out_channels =>
      wrapLoop width height count (input_data + width * height)
        (in_out_channels ++
          [{ rows := height, cols := width, type := CV_32FC1, data := Ptr.input input_data }])

/-- The member function `CnnLidarDetector::WrapInputLayer` (lines 136-149) on the input
blob `net_->input_blobs()[0]`. -/
def WrapInputLayer (input_layer : Blob) (in_out_channels : List Mat) : Status × List Mat :=
  match input_layer.legacyShape 3 with
  | none => (Status.fatal, in_out_channels)
  | some width =>
  match input_layer.legacyShape 2 with
  | none => (Status.fatal, in_out_channels)
  | some height =>
  match input_layer.legacyShape 1 with
  | none => (Status.fatal, in_out_channels)
  | some channels => (Status.returned, wrapLoop width height channels 0 in_out_channels)

/-- The elements of the input buffer that a header views: `rows * cols` elements from
its offset on; none when it points elsewhere. -/
def Mat.covers (v : Mat) (e : Nat) : Prop :=
  match v.data with
  | Ptr.input off => off ≤ e ∧ e < off + v.rows * v.cols
  | Ptr.fresh _ => False
  | Ptr.null => False

/-! ## Vocabulary of the statements -/

/-- Plane `k` of the buffer of a blob with `height` x `width` planes: its raw values. -/
def rawChannel (data : List ℚ) (width height k : Nat) : List ℚ :=
  region data (k * (height * width)) (height * width)

/-- The raw score the network stored for plane `k` at tensor position `(h, w)`. -/
def rawScore (data : List ℚ) (width height k h w : Nat) : ℚ :=
  (rawChannel data width height k).getD (h * width + w) 0

/-- The score of plane `k` at `(h, w)` after `cv::normalize` ran over that plane. -/
def normScore (cutoff : ℚ) (data : List ℚ) (width height k h w : Nat) : ℚ :=
  (normalize cutoff (rawChannel data width height k) 1 0).getD (h * width + w) 0

/-- Min-max normalisation of a value `x` of a channel in the words of the specification:
`(x - min) / (max - min)` when `max > min`, and 0 when the channel is constant. -/
def minMaxScore (channel : List ℚ) (x : ℚ) : ℚ :=
  if listMax channel > listMin channel then
    (x - listMin channel) / (listMax channel - listMin channel)
  else 0

/-- The colour rule in the words of the specification: blue if the bike score is above
the threshold, otherwise green if the person score is, otherwise red if the car score
is, otherwise black. -/
def specColour (car person bike threshold : ℚ) : Vec3b :=
  if bike > threshold then blue
  else if person > threshold then green
  else if car > threshold then red
  else black

/-- Min-max normalisation of a value `x` of a channel as `cv::normalize` computes it:
`(x - min) / (max - min)` when the range `max - min` exceeds `DBL_EPSILON`, else 0. -/
def guardedMinMaxScore (channel : List ℚ) (x : ℚ) : ℚ :=
  if listMax channel - listMin channel > DBL_EPSILON then
    (x - listMin channel) / (listMax channel - listMin channel)
  else 0

/-- A boxes blob of shape 1 x 24 x 1 x 2. -/
def sampleBoxes : Blob := { shape := [1, 24, 1, 2], data := List.replicate 48 0 }

/-- An objectness blob of shape 1 x 4 x 1 x 2: the car channel is `0, 1/10`, the person
channel is constantly `3/4`, the bike channel constantly `1/4`. -/
def sampleObjectness : Blob :=
  { shape := [1, 4, 1, 2], data := [5, 7, 0, 1 / 10, 3 / 4, 3 / 4, 1 / 4, 1 / 4] }

/-- The state before a call on the two sample blobs, with an empty output image. -/
def sampleMachine : Machine :=
  { output_blobs := [sampleBoxes, sampleObjectness]
    out_objectness_image := { rows := 0, cols := 0, px := [] } }

/-- A boxes blob of 24 channels holding other values than `sampleBoxes`. -/
def otherBoxes : Blob := { shape := [1, 24, 1, 2], data := List.replicate 48 9 }

/-- An objectness blob that agrees with `sampleObjectness` on channels 1 to 3 and
differs on channel 0. -/
def otherObjectness : Blob :=
  { shape := [1, 4, 1, 2], data := [-1, 100, 0, 1 / 10, 3 / 4, 3 / 4, 1 / 4, 1 / 4] }

/-- The state before a call on `otherBoxes` and `otherObjectness`, the output image
holding one blue pixel. -/
def otherMachine : Machine :=
  { output_blobs := [otherBoxes, otherObjectness]
    out_objectness_image := { rows := 1, cols := 1, px := [[blue]] } }

/-- An input blob of shape 1 x 2 x 1 x 1 holding zeros. -/
def sampleInputLayer : Blob := { shape := [1, 2, 1, 1], data := [0, 0] }

/-- The state before `PreProcess` on `sampleInputLayer`: the headers that
`WrapInputLayer` pushed onto an empty vector, the input buffer, nothing allocated. -/
def samplePreState : PreState :=
  { in_out_channels := (WrapInputLayer sampleInputLayer []).2
    memory := { input := sampleInputLayer.data, allocated := [] } }

/-- A 1 x 1 depth image of 32-bit floats with the pixel 3. -/
def sampleDepth : Img := { rows := 1, cols := 1, type := CV_32FC1, pixels := [3] }

/-- A 1 x 1 height image of 32-bit floats with the pixel 7. -/
def sampleHeight : Img := { rows := 1, cols := 1, type := CV_32FC1, pixels := [7] }

/-- A 1 x 1 height image of 8-bit unsigned elements with the pixel 7. -/
def byteHeight : Img := { rows := 1, cols := 1, type := CV_8UC1, pixels := [7] }

/-- An objectness blob of shape 1 x 4 x 1 x 2 whose car and person channels are
constantly `1/4` and whose bike channel is `0, 2^-53`. -/
def tinyObjectness : Blob :=
  { shape := [1, 4, 1, 2], data := [5, 7, 1 / 4, 1 / 4, 1 / 4, 1 / 4, 0, 1 / 2 ^ 53] }

/-- The state before a call on `sampleBoxes` and `tinyObjectness`, with an empty output
image. -/
def tinyMachine : Machine :=
  { output_blobs := [sampleBoxes, tinyObjectness]
    out_objectness_image := { rows := 0, cols := 0, px := [] } }

/-! ## Minimum and maximum of a channel -/

theorem foldl_min_le_init (xs : List ℚ) (a : ℚ) : xs.foldl min a ≤ a := by
  induction xs generalizing a with
  | nil => simp
  | cons x xs ih => exact le_trans (ih (min a x)) (min_le_left a x)

theorem foldl_min_le_mem (xs : List ℚ) (a y : ℚ) (hy : y ∈ xs) : xs.foldl min a ≤ y := by
  induction xs generalizing a with
  | nil => simp at hy
  | cons x xs ih =>
    rcases List.mem_cons.mp hy with h | h
    · subst h
      exact le_trans (foldl_min_le_init xs (min a y)) (min_le_right a y)
    · exact ih (min a x) h

theorem init_le_foldl_max (xs : List ℚ) (a : ℚ) : a ≤ xs.foldl max a := by
  induction xs generalizing a with
  | nil => simp
  | cons x xs ih => exact le_trans (le_max_left a x) (ih (max a x))

theorem listMin_le (xs : List ℚ) (y : ℚ) (hy : y ∈ xs) : listMin xs ≤ y := by
  cases xs with
  | nil => simp at hy
  | cons x xs =>
    rcases List.mem_cons.mp hy with h | h
    · subst h; exact foldl_min_le_init xs y
    · exact foldl_min_le_mem xs x y h

theorem listMin_le_listMax (xs : List ℚ) : listMin xs ≤ listMax xs := by
  cases xs with
  | nil => simp [listMin, listMax]
  | cons x xs =>
    exact le_trans (foldl_min_le_init xs x) (init_le_foldl_max xs x)

/-- The value `cv::normalize(_, _, 1, 0, NORM_MINMAX)` stores for a pixel `x`. -/
theorem normalize_eq_map (cutoff : ℚ) (src : List ℚ) :
    CnnLidar.normalize cutoff src 1 0 = src.map fun x =>
      if listMax src - listMin src > cutoff then (x - listMin src) / (listMax src - listMin src)
      else 0 := by
  unfold CnnLidar.normalize
  apply List.map_congr_left
  intro x _
  by_cases h : listMax src - listMin src > cutoff
  · simp only [h, if_true]
    norm_num
    ring
  · simp only [h, if_false]
    norm_num

theorem normalize_length (cutoff : ℚ) (src : List ℚ) (a b : ℚ) :
    (CnnLidar.normalize cutoff src a b).length = src.length := by
  simp [CnnLidar.normalize]

/-! ## Writing through a view -/

theorem region_getElem? (mem : List ℚ) (ptr n j : Nat) :
    (region mem ptr n)[j]? = if j < n then mem[ptr + j]? else none := by
  unfold region
  by_cases h : j < n
  · simp [h, List.getElem?_take, List.getElem?_drop]
  · simp [h, List.getElem?_take]

theorem region_length_le (mem : List ℚ) (ptr n : Nat) : (region mem ptr n).length ≤ n := by
  simp [region]

theorem normalizeInPlace_getElem? (cutoff : ℚ) (mem : List ℚ) (ptr n i : Nat) :
    (normalizeInPlace cutoff mem ptr n)[i]? =
      if ptr ≤ i ∧ i < ptr + n then (CnnLidar.normalize cutoff (region mem ptr n) 1 0)[i - ptr]?
      else mem[i]? := by
  unfold normalizeInPlace
  have hlen : (CnnLidar.normalize cutoff (region mem ptr n) 1 0).length
      = min n (mem.length - ptr) := by
    simp [CnnLidar.normalize, region]
  rw [List.append_assoc, List.getElem?_append, List.getElem?_append]
  simp only [List.length_take, hlen, List.getElem?_take, List.getElem?_drop]
  by_cases h1 : i < min ptr mem.length
  · have : ¬ (ptr ≤ i ∧ i < ptr + n) := by omega
    have h3 : i < ptr := by omega
    simp [h1, this, h3]
  · simp only [h1, if_false]
    by_cases h2 : ptr ≤ mem.length
    · have e : min ptr mem.length = ptr := by omega
      rw [e]
      by_cases h3 : i - ptr < min n (mem.length - ptr)
      · have : ptr ≤ i ∧ i < ptr + n := by omega
        simp [h3, this]
      · simp only [h3, if_false]
        by_cases h4 : ptr ≤ i ∧ i < ptr + n
        · simp only [h4, and_self, if_true]
          have h5 : mem.length ≤ ptr + n + (i - ptr - min n (mem.length - ptr)) := by omega
          rw [List.getElem?_eq_none_iff.mpr h5]
          symm
          apply List.getElem?_eq_none_iff.mpr
          rw [hlen]; omega
        · simp only [h4, if_false]
          have h5 : ptr ≤ i := by omega
          by_cases h6 : n ≤ mem.length - ptr
          · have h7 : ptr + n + (i - ptr - min n (mem.length - ptr)) = i := by omega
            rw [h7]
          · have h7 : mem.length ≤ ptr + n + (i - ptr - min n (mem.length - ptr)) := by omega
            have h8 : mem.length ≤ i := by omega
            rw [List.getElem?_eq_none_iff.mpr h7, List.getElem?_eq_none_iff.mpr h8]
    · have h5 : mem.length ≤ i := by omega
      have h6 : mem.length ≤ ptr + n + (i - min ptr mem.length - min n (mem.length - ptr)) := by omega
      have h7 : ¬ (i - min ptr mem.length < min n (mem.length - ptr)) := by omega
      simp only [h7, if_false]
      rw [List.getElem?_eq_none_iff.mpr h6]
      by_cases h4 : ptr ≤ i ∧ i < ptr + n
      · simp only [h4, and_self, if_true]
        symm
        apply List.getElem?_eq_none_iff.mpr
        rw [hlen]; omega
      · simp only [h4, if_false]
        exact (List.getElem?_eq_none_iff.mpr h5).symm

theorem normalizeInPlace_length (cutoff : ℚ) (mem : List ℚ) (ptr n : Nat) :
    (normalizeInPlace cutoff mem ptr n).length = mem.length := by
  simp [normalizeInPlace, CnnLidar.normalize, region]
  omega

/-! ## The channel loop -/

theorem region_normalizeInPlace_of_le (cutoff : ℚ) (mem : List ℚ) (p n q m : Nat)
    (h : p + n ≤ q) : region (normalizeInPlace cutoff mem p n) q m = region mem q m := by
  apply List.ext_getElem?
  intro j
  rw [region_getElem?, region_getElem?, normalizeInPlace_getElem?]
  have : ¬ (p ≤ q + j ∧ q + j < p + n) := by omega
  simp [this]

theorem channelLoop_four (cutoff : ℚ) (width height : Nat) (mem : List ℚ) :
    channelLoop cutoff width height 4 0 mem [] =
      (normalizeInPlace cutoff (normalizeInPlace cutoff (normalizeInPlace cutoff
        (normalizeInPlace cutoff mem 0 (height * width)) (height * width) (height * width))
        (2 * (height * width)) (height * width)) (3 * (height * width)) (height * width),
       [0, height * width, 2 * (height * width), 3 * (height * width)]) := by
  have e : width * height = height * width := Nat.mul_comm _ _
  simp only [channelLoop, e, List.nil_append, List.cons_append, Nat.zero_add]
  have e2 : height * width + height * width = 2 * (height * width) := by ring
  have e3 : 2 * (height * width) + height * width = 3 * (height * width) := by ring
  rw [e2, e3]

theorem loop_getElem?_class (cutoff : ℚ) (width height : Nat) (mem : List ℚ) (k j : Nat)
    (hk : k < 4) (hj : j < height * width) :
    (channelLoop cutoff width height 4 0 mem []).1[k * (height * width) + j]? =
      (CnnLidar.normalize cutoff (region mem (k * (height * width)) (height * width)) 1 0)[j]? := by
  rw [channelLoop_four]
  simp only
  generalize height * width = n at *
  interval_cases k
  · rw [normalizeInPlace_getElem?, normalizeInPlace_getElem?, normalizeInPlace_getElem?,
      normalizeInPlace_getElem?]
    have c1 : ¬ (3 * n ≤ 0 * n + j ∧ 0 * n + j < 3 * n + n) := by omega
    have c2 : ¬ (2 * n ≤ 0 * n + j ∧ 0 * n + j < 2 * n + n) := by omega
    have c3 : ¬ (n ≤ 0 * n + j ∧ 0 * n + j < n + n) := by omega
    have c4 : (0 ≤ 0 * n + j ∧ 0 * n + j < 0 + n) := by omega
    simp only [c1, c2, c3, c4, if_false, and_self, if_true]
    simp
  · rw [normalizeInPlace_getElem?, normalizeInPlace_getElem?, normalizeInPlace_getElem?]
    have c1 : ¬ (3 * n ≤ 1 * n + j ∧ 1 * n + j < 3 * n + n) := by omega
    have c2 : ¬ (2 * n ≤ 1 * n + j ∧ 1 * n + j < 2 * n + n) := by omega
    have c3 : (n ≤ 1 * n + j ∧ 1 * n + j < n + n) := by omega
    simp only [c1, c2, c3, if_false, and_self, if_true]
    rw [region_normalizeInPlace_of_le cutoff mem 0 n n n (by omega)]
    have e : 1 * n + j - n = j := by omega
    rw [e, Nat.one_mul]
  · rw [normalizeInPlace_getElem?, normalizeInPlace_getElem?]
    have c1 : ¬ (3 * n ≤ 2 * n + j ∧ 2 * n + j < 3 * n + n) := by omega
    have c2 : (2 * n ≤ 2 * n + j ∧ 2 * n + j < 2 * n + n) := by omega
    simp only [c1, c2, if_false, and_self, if_true]
    rw [region_normalizeInPlace_of_le cutoff _ n n (2 * n) n (by omega),
      region_normalizeInPlace_of_le cutoff mem 0 n (2 * n) n (by omega)]
    have e : 2 * n + j - 2 * n = j := by omega
    rw [e]
  · rw [normalizeInPlace_getElem?]
    have c2 : (3 * n ≤ 3 * n + j ∧ 3 * n + j < 3 * n + n) := by omega
    simp only [c2, and_self, if_true]
    rw [region_normalizeInPlace_of_le cutoff _ (2 * n) n (3 * n) n (by omega),
      region_normalizeInPlace_of_le cutoff _ n n (3 * n) n (by omega),
      region_normalizeInPlace_of_le cutoff mem 0 n (3 * n) n (by omega)]
    have e : 3 * n + j - 3 * n = j := by omega
    rw [e]

theorem loop_getElem?_beyond (cutoff : ℚ) (width height : Nat) (mem : List ℚ) (i : Nat)
    (hi : 4 * (height * width) ≤ i) :
    (channelLoop cutoff width height 4 0 mem []).1[i]? = mem[i]? := by
  rw [channelLoop_four]
  simp only
  generalize height * width = n at *
  rw [normalizeInPlace_getElem?, normalizeInPlace_getElem?, normalizeInPlace_getElem?,
      normalizeInPlace_getElem?]
  have c1 : ¬ (3 * n ≤ i ∧ i < 3 * n + n) := by omega
  have c2 : ¬ (2 * n ≤ i ∧ i < 2 * n + n) := by omega
  have c3 : ¬ (n ≤ i ∧ i < n + n) := by omega
  have c4 : ¬ (0 ≤ i ∧ i < 0 + n) := by omega
  simp only [c1, c2, c3, c4, if_false]

theorem loop_length (cutoff : ℚ) (width height : Nat) (mem : List ℚ) :
    (channelLoop cutoff width height 4 0 mem []).1.length = mem.length := by
  rw [channelLoop_four]
  simp only [normalizeInPlace_length]

/-! ## `GetNetworkResults`: shared lemmas -/

theorem GetNetworkResults_eq (cutoff t : ℚ) (s : Machine) (boxes obj : Blob) (H W : Nat)
    (h0 : s.output_blobs[0]? = some boxes) (h1 : s.output_blobs[1]? = some obj)
    (hb : boxes.shapeAt 1 = some 24) (ho1 : obj.shapeAt 1 = some 4)
    (ho2 : obj.shapeAt 2 = some H) (ho3 : obj.shapeAt 3 = some W) :
    GetNetworkResults cutoff t s =
      (Status.returned,
        { output_blobs := s.output_blobs.set 1
            { obj with data := (channelLoop cutoff W H 4 0 obj.data []).1 }
          out_objectness_image :=
            CnnLidar.flip (bgrImage (channelLoop cutoff W H 4 0 obj.data []).1
              (channelLoop cutoff W H 4 0 obj.data []).2 W H t) }) := by
  unfold GetNetworkResults
  simp only [h0, h1, hb, ho1, ho2, ho3]
  simp

theorem bgrImage_at? (mem : List ℚ) (chans : List Nat) (W H : Nat) (t : ℚ) (h w : Nat)
    (hh : h < H) (hw : w < W) :
    (bgrImage mem chans W H t).at? h w =
      some (classColour (channelAt mem chans W 1 h w) (channelAt mem chans W 2 h w)
        (channelAt mem chans W 3 h w) t) := by
  simp [bgrImage, Mat8UC3.at?, List.getElem?_map, List.getElem?_range, hh, hw]

theorem flip_bgrImage_at? (mem : List ℚ) (chans : List Nat) (W H : Nat) (t : ℚ) (r c : Nat)
    (hr : r < H) (hc : c < W) :
    (CnnLidar.flip (bgrImage mem chans W H t)).at? r c =
      (bgrImage mem chans W H t).at? (H - 1 - r) (W - 1 - c) := by
  have hr2 : H - 1 - r < H := by omega
  have hc2 : W - 1 - c < W := by omega
  rw [bgrImage_at? mem chans W H t _ _ hr2 hc2]
  simp [CnnLidar.flip, bgrImage, Mat8UC3.at?, List.getElem?_reverse, List.getElem?_map,
    List.getElem?_range, hr, hc, hr2, hc2]

theorem index_lt (H W h w : Nat) (hh : h < H) (hw : w < W) : h * W + w < H * W := by
  have : (h + 1) * W ≤ H * W := Nat.mul_le_mul_right W hh
  have e : (h + 1) * W = h * W + W := by ring
  omega

theorem channelAt_loop (cutoff : ℚ) (data : List ℚ) (W H k h w : Nat) (hk : k < 4)
    (hh : h < H) (hw : w < W) :
    channelAt (channelLoop cutoff W H 4 0 data []).1 (channelLoop cutoff W H 4 0 data []).2
      W k h w = normScore cutoff data W H k h w := by
  have hj := index_lt H W h w hh hw
  have hc : (channelLoop cutoff W H 4 0 data []).2.getD k 0 = k * (H * W) := by
    rw [channelLoop_four]
    interval_cases k <;> simp
  unfold channelAt normScore rawChannel
  rw [hc, List.getD_eq_getElem?_getD, List.getD_eq_getElem?_getD, Nat.add_assoc,
    loop_getElem?_class cutoff W H data k (h * W + w) hk hj]

/-! ## Colour of a returned pixel -/

theorem classColour_cases (a b c t : ℚ) :
    (classColour a b c t = black ∨ classColour a b c t = red ∨ classColour a b c t = green ∨
      classColour a b c t = blue) ∧
    (classColour a b c t = red → a > t) ∧ (classColour a b c t = green → b > t) ∧
    (classColour a b c t = blue → c > t) ∧
    (classColour a b c t = black → ¬ a > t ∧ ¬ b > t ∧ ¬ c > t) := by
  unfold classColour
  by_cases h1 : a > t <;> by_cases h2 : b > t <;> by_cases h3 : c > t <;>
    simp [h1, h2, h3, black, red, green, blue]

theorem out_at? (cutoff t : ℚ) (s : Machine) (boxes obj : Blob) (H W : Nat)
    (h0 : s.output_blobs[0]? = some boxes) (h1 : s.output_blobs[1]? = some obj)
    (hb : boxes.shapeAt 1 = some 24) (ho1 : obj.shapeAt 1 = some 4)
    (ho2 : obj.shapeAt 2 = some H) (ho3 : obj.shapeAt 3 = some W)
    (r c : Nat) (hr : r < H) (hc : c < W) :
    (GetNetworkResults cutoff t s).2.out_objectness_image.at? r c =
      some (classColour (normScore cutoff obj.data W H 1 (H - 1 - r) (W - 1 - c))
        (normScore cutoff obj.data W H 2 (H - 1 - r) (W - 1 - c))
        (normScore cutoff obj.data W H 3 (H - 1 - r) (W - 1 - c)) t) := by
  have hr2 : H - 1 - r < H := by omega
  have hc2 : W - 1 - c < W := by omega
  rw [GetNetworkResults_eq cutoff t s boxes obj H W h0 h1 hb ho1 ho2 ho3]
  simp only
  rw [flip_bgrImage_at? _ _ W H t r c hr hc, bgrImage_at? _ _ W H t _ _ hr2 hc2,
    channelAt_loop cutoff obj.data W H 1 _ _ (by omega) hr2 hc2,
    channelAt_loop cutoff obj.data W H 2 _ _ (by omega) hr2 hc2,
    channelAt_loop cutoff obj.data W H 3 _ _ (by omega) hr2 hc2]

/-- C1 amended: every pixel of the returned image is black, red, green or blue; a red
pixel at `(r, c)` implies that the car score after per-channel min-max normalisation, at
the flipped tensor position `(H-1-r, W-1-c)`, is above the threshold, likewise green for
the person score and blue for the bike score, and a black pixel implies that none of the
three normalised scores there is above it. -/
theorem C1_colour_only_for_normalised_class (cutoff t : ℚ) (s : Machine) (boxes obj : Blob)
    (H W : Nat)
    (h0 : s.output_blobs[0]? = some boxes) (h1 : s.output_blobs[1]? = some obj)
    (hb : boxes.shapeAt 1 = some 24) (ho1 : obj.shapeAt 1 = some 4)
    (ho2 : obj.shapeAt 2 = some H) (ho3 : obj.shapeAt 3 = some W)
    (r c : Nat) (hr : r < H) (hc : c < W) :
    ∃ p, (GetNetworkResults cutoff t s).2.out_objectness_image.at? r c = some p ∧
      (p = black ∨ p = red ∨ p = green ∨ p = blue) ∧
      (p = red → normScore cutoff obj.data W H 1 (H - 1 - r) (W - 1 - c) > t) ∧
      (p = green → normScore cutoff obj.data W H 2 (H - 1 - r) (W - 1 - c) > t) ∧
      (p = blue → normScore cutoff obj.data W H 3 (H - 1 - r) (W - 1 - c) > t) ∧
      (p = black →
        ¬ normScore cutoff obj.data W H 1 (H - 1 - r) (W - 1 - c) > t ∧
        ¬ normScore cutoff obj.data W H 2 (H - 1 - r) (W - 1 - c) > t ∧
        ¬ normScore cutoff obj.data W H 3 (H - 1 - r) (W - 1 - c) > t) :=
  ⟨_, out_at? cutoff t s boxes obj H W h0 h1 hb ho1 ho2 ho3 r c hr hc, classColour_cases _ _ _ _⟩

theorem sample_out (cutoff : ℚ) (hc : cutoff < 1 / 10) :
    (GetNetworkResults cutoff (1 / 2) sampleMachine).2.out_objectness_image.px
      = [[red, black]] := by
  have h2 : ¬ (1 / 10 < cutoff) := not_lt.mpr (le_of_lt hc)
  simp [GetNetworkResults, sampleMachine, sampleBoxes, sampleObjectness, Blob.shapeAt,
    channelLoop, normalizeInPlace, region, CnnLidar.normalize, listMin, listMax, bgrImage,
    channelAt, classColour, CnnLidar.flip, List.range, List.range.loop]
  norm_num [red, black, hc, h2]


theorem sample_raw :
    rawScore sampleObjectness.data 2 1 1 0 0 = 0 ∧
    rawScore sampleObjectness.data 2 1 1 0 1 = 1 / 10 ∧
    rawScore sampleObjectness.data 2 1 2 0 0 = 3 / 4 ∧
    rawScore sampleObjectness.data 2 1 2 0 1 = 3 / 4 := by
  simp [rawScore, rawChannel, region, sampleObjectness]

/-- C1 refuted as stated: on the sample blobs with threshold 1/2 (for the cutoff 0 and for
`DBL_EPSILON`) the returned pixel `(0, 0)` is red although the network's car score is
0 at `(0, 0)` and 1/10 at the flipped position `(0, 1)`, both below the threshold; and
pixel `(0, 1)` is black although the network's person score is 3/4 at both positions. -/
theorem C1_counterexample :
    (GetNetworkResults 0 (1 / 2) sampleMachine).2.out_objectness_image.at? 0 0 = some red ∧
    (GetNetworkResults DBL_EPSILON (1 / 2) sampleMachine).2.out_objectness_image.at? 0 0
      = some red ∧
    ¬ rawScore sampleObjectness.data 2 1 1 0 0 > 1 / 2 ∧
    ¬ rawScore sampleObjectness.data 2 1 1 0 1 > 1 / 2 ∧
    (GetNetworkResults 0 (1 / 2) sampleMachine).2.out_objectness_image.at? 0 1 = some black ∧
    (GetNetworkResults DBL_EPSILON (1 / 2) sampleMachine).2.out_objectness_image.at? 0 1
      = some black ∧
    rawScore sampleObjectness.data 2 1 2 0 0 > 1 / 2 ∧
    rawScore sampleObjectness.data 2 1 2 0 1 > 1 / 2 := by
  have e0 := sample_out 0 (by norm_num)
  have e1 := sample_out DBL_EPSILON (by norm_num [DBL_EPSILON])
  obtain ⟨r1, r2, r3, r4⟩ := sample_raw
  refine ⟨?_, ?_, ?_, ?_, ?_, ?_, ?_, ?_⟩
  · simp only [Mat8UC3.at?, e0]; rfl
  · simp only [Mat8UC3.at?, e1]; rfl
  · rw [r1]; norm_num
  · rw [r2]; norm_num
  · simp only [Mat8UC3.at?, e0]; rfl
  · simp only [Mat8UC3.at?, e1]; rfl
  · rw [r3]; norm_num
  · rw [r4]; norm_num

/-- Witness of `C1_colour_only_for_normalised_class` on the sample blobs. -/
theorem C1_colour_only_for_normalised_class_witness :
    ∃ p, (GetNetworkResults 0 (1 / 2) sampleMachine).2.out_objectness_image.at? 0 0 = some p ∧
      (p = black ∨ p = red ∨ p = green ∨ p = blue) ∧
      (p = red → normScore 0 sampleObjectness.data 2 1 1 (1 - 1 - 0) (2 - 1 - 0) > 1 / 2) ∧
      (p = green → normScore 0 sampleObjectness.data 2 1 2 (1 - 1 - 0) (2 - 1 - 0) > 1 / 2) ∧
      (p = blue → normScore 0 sampleObjectness.data 2 1 3 (1 - 1 - 0) (2 - 1 - 0) > 1 / 2) ∧
      (p = black →
        ¬ normScore 0 sampleObjectness.data 2 1 1 (1 - 1 - 0) (2 - 1 - 0) > 1 / 2 ∧
        ¬ normScore 0 sampleObjectness.data 2 1 2 (1 - 1 - 0) (2 - 1 - 0) > 1 / 2 ∧
        ¬ normScore 0 sampleObjectness.data 2 1 3 (1 - 1 - 0) (2 - 1 - 0) > 1 / 2) :=
  C1_colour_only_for_normalised_class 0 (1 / 2) sampleMachine sampleBoxes sampleObjectness 1 2
    (by rfl) (by rfl) (by rfl) (by rfl) (by rfl) (by rfl) 0 0 (by decide) (by decide)

theorem out_size (cutoff t : ℚ) (s : Machine) (boxes obj : Blob) (H W : Nat)
    (h0 : s.output_blobs[0]? = some boxes) (h1 : s.output_blobs[1]? = some obj)
    (hb : boxes.shapeAt 1 = some 24) (ho1 : obj.shapeAt 1 = some 4)
    (ho2 : obj.shapeAt 2 = some H) (ho3 : obj.shapeAt 3 = some W) :
    (GetNetworkResults cutoff t s).2.out_objectness_image.rows = H ∧
    (GetNetworkResults cutoff t s).2.out_objectness_image.cols = W ∧
    (GetNetworkResults cutoff t s).2.out_objectness_image.px.length = H ∧
    ∀ row ∈ (GetNetworkResults cutoff t s).2.out_objectness_image.px, row.length = W := by
  rw [GetNetworkResults_eq cutoff t s boxes obj H W h0 h1 hb ho1 ho2 ho3]
  simp only [CnnLidar.flip, bgrImage]
  refine ⟨trivial, trivial, by simp, ?_⟩
  intro row hrow
  simp only [List.mem_reverse, List.mem_map, List.mem_range] at hrow
  obtain ⟨a, ⟨h, _, rfl⟩, rfl⟩ := hrow
  simp

/-- C3: when both channel checks pass, the call returns an image with `H` rows and `W`
columns, the height and width of the objectness tensor (the function takes no input
image), and its pixel `(r, c)` is the colour computed for tensor position
`(H-1-r, W-1-c)`: the colour-coded image flipped vertically and horizontally. -/
theorem C3_output_is_flipped_colour_image (cutoff t : ℚ) (s : Machine) (boxes obj : Blob)
    (H W : Nat)
    (h0 : s.output_blobs[0]? = some boxes) (h1 : s.output_blobs[1]? = some obj)
    (hb : boxes.shapeAt 1 = some 24) (ho1 : obj.shapeAt 1 = some 4)
    (ho2 : obj.shapeAt 2 = some H) (ho3 : obj.shapeAt 3 = some W) :
    (GetNetworkResults cutoff t s).1 = Status.returned ∧
    (GetNetworkResults cutoff t s).2.out_objectness_image.rows = H ∧
    (GetNetworkResults cutoff t s).2.out_objectness_image.cols = W ∧
    (GetNetworkResults cutoff t s).2.out_objectness_image.px.length = H ∧
    (∀ row ∈ (GetNetworkResults cutoff t s).2.out_objectness_image.px, row.length = W) ∧
    (GetNetworkResults cutoff t s).2.out_objectness_image =
      CnnLidar.flip (bgrImage (channelLoop cutoff W H 4 0 obj.data []).1
        (channelLoop cutoff W H 4 0 obj.data []).2 W H t) ∧
    ∀ r c, r < H → c < W →
      (GetNetworkResults cutoff t s).2.out_objectness_image.at? r c =
        (bgrImage (channelLoop cutoff W H 4 0 obj.data []).1
          (channelLoop cutoff W H 4 0 obj.data []).2 W H t).at? (H - 1 - r) (W - 1 - c) ∧
      (GetNetworkResults cutoff t s).2.out_objectness_image.at? r c =
        some (classColour (normScore cutoff obj.data W H 1 (H - 1 - r) (W - 1 - c))
          (normScore cutoff obj.data W H 2 (H - 1 - r) (W - 1 - c))
          (normScore cutoff obj.data W H 3 (H - 1 - r) (W - 1 - c)) t) := by
  obtain ⟨s1, s2, s3, s4⟩ := out_size cutoff t s boxes obj H W h0 h1 hb ho1 ho2 ho3
  refine ⟨?_, s1, s2, s3, s4, ?_, ?_⟩
  · rw [GetNetworkResults_eq cutoff t s boxes obj H W h0 h1 hb ho1 ho2 ho3]
  · rw [GetNetworkResults_eq cutoff t s boxes obj H W h0 h1 hb ho1 ho2 ho3]
  · intro r c hr hc
    refine ⟨?_, out_at? cutoff t s boxes obj H W h0 h1 hb ho1 ho2 ho3 r c hr hc⟩
    rw [GetNetworkResults_eq cutoff t s boxes obj H W h0 h1 hb ho1 ho2 ho3]
    exact flip_bgrImage_at? _ _ W H t r c hr hc

/-! ## Channel checks -/

/-- Witness of `C3_output_is_flipped_colour_image` on the sample blobs. -/
theorem C3_output_is_flipped_colour_image_witness :
    (sampleMachine.output_blobs[0]? = some sampleBoxes ∧
      sampleMachine.output_blobs[1]? = some sampleObjectness ∧
      sampleBoxes.shapeAt 1 = some 24 ∧ sampleObjectness.shapeAt 1 = some 4 ∧
      sampleObjectness.shapeAt 2 = some 1 ∧ sampleObjectness.shapeAt 3 = some 2) ∧
    (GetNetworkResults 0 (1 / 2) sampleMachine).1 = Status.returned ∧
    (GetNetworkResults 0 (1 / 2) sampleMachine).2.out_objectness_image.rows = 1 ∧
    (GetNetworkResults 0 (1 / 2) sampleMachine).2.out_objectness_image.cols = 2 :=
  ⟨⟨rfl, rfl, rfl, rfl, rfl, rfl⟩,
    (C3_output_is_flipped_colour_image 0 (1 / 2) sampleMachine sampleBoxes sampleObjectness
      1 2 rfl rfl rfl rfl rfl rfl).1,
    (C3_output_is_flipped_colour_image 0 (1 / 2) sampleMachine sampleBoxes sampleObjectness
      1 2 rfl rfl rfl rfl rfl rfl).2.1,
    (C3_output_is_flipped_colour_image 0 (1 / 2) sampleMachine sampleBoxes sampleObjectness
      1 2 rfl rfl rfl rfl rfl rfl).2.2.1⟩

theorem normScore_congr (cutoff : ℚ) (d1 d2 : List ℚ) (W H k h w : Nat)
    (e : rawChannel d1 W H k = rawChannel d2 W H k) :
    normScore cutoff d1 W H k h w = normScore cutoff d2 W H k h w := by
  unfold normScore
  rw [e]

/-- C8: two calls with the same threshold on objectness blobs of the same shape whose
raw channels 1, 2 and 3 agree both return, and return the same image, whatever the boxes
blobs (each of 24 channels), objectness channel 0 and the previous output images hold. -/
theorem C8_image_depends_only_on_class_channels (cutoff t : ℚ) (s1 s2 : Machine)
    (boxes1 obj1 boxes2 obj2 : Blob) (H W : Nat)
    (a0 : s1.output_blobs[0]? = some boxes1) (a1 : s1.output_blobs[1]? = some obj1)
    (ab : boxes1.shapeAt 1 = some 24) (ao1 : obj1.shapeAt 1 = some 4)
    (ao2 : obj1.shapeAt 2 = some H) (ao3 : obj1.shapeAt 3 = some W)
    (b0 : s2.output_blobs[0]? = some boxes2) (b1 : s2.output_blobs[1]? = some obj2)
    (bb : boxes2.shapeAt 1 = some 24) (bo1 : obj2.shapeAt 1 = some 4)
    (bo2 : obj2.shapeAt 2 = some H) (bo3 : obj2.shapeAt 3 = some W)
    (agree : ∀ k, 1 ≤ k → k ≤ 3 → rawChannel obj1.data W H k = rawChannel obj2.data W H k) :
    (GetNetworkResults cutoff t s1).1 = Status.returned ∧
    (GetNetworkResults cutoff t s2).1 = Status.returned ∧
    (GetNetworkResults cutoff t s1).2.out_objectness_image =
      (GetNetworkResults cutoff t s2).2.out_objectness_image := by
  rw [GetNetworkResults_eq cutoff t s1 boxes1 obj1 H W a0 a1 ab ao1 ao2 ao3,
    GetNetworkResults_eq cutoff t s2 boxes2 obj2 H W b0 b1 bb bo1 bo2 bo3]
  refine ⟨rfl, rfl, ?_⟩
  simp only
  congr 1
  unfold bgrImage
  congr 1
  apply List.map_congr_left
  intro h hh
  apply List.map_congr_left
  intro w hw
  have hh2 : h < H := List.mem_range.mp hh
  have hw2 : w < W := List.mem_range.mp hw
  rw [channelAt_loop cutoff obj1.data W H 1 h w (by omega) hh2 hw2,
    channelAt_loop cutoff obj1.data W H 2 h w (by omega) hh2 hw2,
    channelAt_loop cutoff obj1.data W H 3 h w (by omega) hh2 hw2,
    channelAt_loop cutoff obj2.data W H 1 h w (by omega) hh2 hw2,
    channelAt_loop cutoff obj2.data W H 2 h w (by omega) hh2 hw2,
    channelAt_loop cutoff obj2.data W H 3 h w (by omega) hh2 hw2,
    normScore_congr cutoff _ _ W H 1 h w (agree 1 (by omega) (by omega)),
    normScore_congr cutoff _ _ W H 2 h w (agree 2 (by omega) (by omega)),
    normScore_congr cutoff _ _ W H 3 h w (agree 3 (by omega) (by omega))]

theorem rawChannel_loop (cutoff : ℚ) (data : List ℚ) (W H k : Nat) (hk : k < 4) :
    rawChannel (channelLoop cutoff W H 4 0 data []).1 W H k =
      CnnLidar.normalize cutoff (rawChannel data W H k) 1 0 := by
  apply List.ext_getElem?
  intro j
  unfold rawChannel
  rw [region_getElem?]
  by_cases hj : j < H * W
  · simp only [hj, if_true]
    exact loop_getElem?_class cutoff W H data k j hk hj
  · simp only [hj, if_false]
    symm
    apply List.getElem?_eq_none_iff.mpr
    rw [normalize_length]
    have := region_length_le data (k * (H * W)) (H * W)
    omega

/-- What a returning call does to the output blobs: every blob other than the objectness
blob is as it was (the boxes blob in particular) and the objectness blob keeps its shape
and buffer length, but the normalisation runs through views into the objectness buffer,
so afterwards each of the four objectness planes holds its normalised values; the buffer
beyond the four planes is as before. -/
theorem objectness_normalised_in_place (cutoff t : ℚ) (s : Machine) (boxes obj : Blob)
    (H W : Nat)
    (h0 : s.output_blobs[0]? = some boxes) (h1 : s.output_blobs[1]? = some obj)
    (hb : boxes.shapeAt 1 = some 24) (ho1 : obj.shapeAt 1 = some 4)
    (ho2 : obj.shapeAt 2 = some H) (ho3 : obj.shapeAt 3 = some W) :
    (GetNetworkResults cutoff t s).2.output_blobs[0]? = some boxes ∧
    (∀ i, i ≠ 1 → (GetNetworkResults cutoff t s).2.output_blobs[i]? = s.output_blobs[i]?) ∧
    ∃ after, (GetNetworkResults cutoff t s).2.output_blobs[1]? = some after ∧
      after.shape = obj.shape ∧ after.data.length = obj.data.length ∧
      (∀ k, k < 4 → rawChannel after.data W H k =
        CnnLidar.normalize cutoff (rawChannel obj.data W H k) 1 0) ∧
      (∀ i, 4 * (H * W) ≤ i → after.data[i]? = obj.data[i]?) := by
  rw [GetNetworkResults_eq cutoff t s boxes obj H W h0 h1 hb ho1 ho2 ho3]
  simp only
  have hlen : 1 < s.output_blobs.length := by
    rcases Nat.lt_or_ge 1 s.output_blobs.length with h | h
    · exact h
    · rw [List.getElem?_eq_none_iff.mpr h] at h1
      exact absurd h1 (by simp)
  refine ⟨?_, ?_, ?_⟩
  · rw [List.getElem?_set_ne (by omega)]
    exact h0
  · intro i hi
    rw [List.getElem?_set_ne (by omega)]
  · refine ⟨{ obj with data := (channelLoop cutoff W H 4 0 obj.data []).1 }, ?_, rfl, ?_, ?_, ?_⟩
    · rw [List.getElem?_set_self hlen]
    · exact loop_length cutoff W H obj.data
    · intro k hk
      exact rawChannel_loop cutoff obj.data W H k hk
    · intro i hi
      exact loop_getElem?_beyond cutoff W H obj.data i hi

theorem sample_blob_after (cutoff : ℚ) (hc : cutoff < 1 / 10) (hc0 : 0 ≤ cutoff) :
    (GetNetworkResults cutoff (1 / 2) sampleMachine).2.output_blobs =
      [sampleBoxes, { shape := [1, 4, 1, 2], data := [0, 1, 0, 1, 0, 0, 0, 0] }] := by
  have h2 : ¬ (1 / 10 < cutoff) := not_lt.mpr (le_of_lt hc)
  have h3 : cutoff < 2 := by linarith
  have h4 : ¬ (cutoff < 0) := not_lt.mpr hc0
  simp [GetNetworkResults, sampleMachine, sampleBoxes, sampleObjectness, Blob.shapeAt,
    channelLoop, normalizeInPlace, region, CnnLidar.normalize, listMin, listMax]
  norm_num [hc, h2, h3, h4]


/-- Witness of `C8_image_depends_only_on_class_channels`: the sample blobs against a run
with other boxes values, another objectness channel 0 and another previous image. -/
theorem C8_image_depends_only_on_class_channels_witness :
    (∀ k, 1 ≤ k → k ≤ 3 →
      rawChannel sampleObjectness.data 2 1 k = rawChannel otherObjectness.data 2 1 k) ∧
    (GetNetworkResults 0 (1 / 2) sampleMachine).2.out_objectness_image =
      (GetNetworkResults 0 (1 / 2) otherMachine).2.out_objectness_image :=
  have agree : ∀ k, 1 ≤ k → k ≤ 3 →
      rawChannel sampleObjectness.data 2 1 k = rawChannel otherObjectness.data 2 1 k := by
    intro k h1 h3
    interval_cases k <;> simp [rawChannel, region, sampleObjectness, otherObjectness]
  ⟨agree,
    (C8_image_depends_only_on_class_channels 0 (1 / 2) sampleMachine otherMachine
      sampleBoxes sampleObjectness otherBoxes otherObjectness 1 2
      rfl rfl rfl rfl rfl rfl rfl rfl rfl rfl rfl rfl agree).2.2⟩

/-! ## The colour function -/

theorem normalize_getD (cutoff : ℚ) (ch : List ℚ) (j : Nat) (x : ℚ) (hx : ch[j]? = some x) :
    (CnnLidar.normalize cutoff ch 1 0).getD j 0 =
      if listMax ch - listMin ch > cutoff then (x - listMin ch) / (listMax ch - listMin ch)
      else 0 := by
  rw [normalize_eq_map, List.getD_eq_getElem?_getD, List.getElem?_map, hx]
  rfl

theorem rawChannel_length (data : List ℚ) (W H k : Nat) (hk : k < 4)
    (wf : 4 * (H * W) ≤ data.length) : (rawChannel data W H k).length = H * W := by
  simp only [rawChannel, region, List.length_take, List.length_drop]
  have : k * (H * W) + H * W ≤ 4 * (H * W) := by
    have := Nat.mul_le_mul_right (H * W) (show k + 1 ≤ 4 by omega)
    have e : (k + 1) * (H * W) = k * (H * W) + H * W := by ring
    omega
  omega

theorem rawChannel_getElem? (data : List ℚ) (W H k h w : Nat) (hk : k < 4)
    (wf : 4 * (H * W) ≤ data.length) (hh : h < H) (hw : w < W) :
    (rawChannel data W H k)[h * W + w]? = some (rawScore data W H k h w) := by
  have hj := index_lt H W h w hh hw
  have hl := rawChannel_length data W H k hk wf
  unfold rawScore
  rw [List.getD_eq_getElem?_getD, List.getElem?_eq_getElem (by omega)]
  rfl

/-- The normalised score in closed form, for any comparison constant of the library. -/
theorem normScore_eq (cutoff : ℚ) (data : List ℚ) (W H k h w : Nat) (hk : k < 4)
    (wf : 4 * (H * W) ≤ data.length) (hh : h < H) (hw : w < W) :
    normScore cutoff data W H k h w =
      if listMax (rawChannel data W H k) - listMin (rawChannel data W H k) > cutoff then
        (rawScore data W H k h w - listMin (rawChannel data W H k)) /
          (listMax (rawChannel data W H k) - listMin (rawChannel data W H k))
      else 0 :=
  normalize_getD cutoff _ _ _ (rawChannel_getElem? data W H k h w hk wf hh hw)

theorem classColour_eq_specColour (a b c t : ℚ) :
    classColour a b c t = specColour a b c t := by
  unfold classColour specColour
  by_cases h1 : a > t <;> by_cases h2 : b > t <;> by_cases h3 : c > t <;> simp [h1, h2, h3]

/-! ## Black images -/

theorem wrapLoop_eq (W H count ptr : Nat) (chs : List Mat) :
    wrapLoop W H count ptr chs = chs ++ (List.range count).map fun i =>
      ({ rows := H, cols := W, type := CV_32FC1, data := Ptr.input (ptr + i * (W * H)) } : Mat) := by
  induction count generalizing ptr chs with
  | zero => simp [wrapLoop]
  | succ n ih =>
    rw [wrapLoop, ih, List.range_succ_eq_map, List.append_assoc]
    congr 1
    simp only [List.singleton_append, List.map_cons, List.map_map, Nat.zero_mul, Nat.add_zero]
    congr 1
    apply List.map_congr_left
    intro i _
    simp only [Function.comp]
    congr 2
    rw [Nat.succ_mul]
    omega

theorem WrapInputLayer_eq (input_layer : Blob) (C H W : Nat) (chs : List Mat)
    (hc : input_layer.legacyShape 1 = some C) (hh : input_layer.legacyShape 2 = some H)
    (hw : input_layer.legacyShape 3 = some W) :
    WrapInputLayer input_layer chs = (Status.returned, chs ++ (List.range C).map fun i =>
      ({ rows := H, cols := W, type := CV_32FC1, data := Ptr.input (i * W * H) } : Mat)) := by
  unfold WrapInputLayer
  simp only [hc, hh, hw]
  rw [wrapLoop_eq]
  congr 2
  apply List.map_congr_left
  intro i _
  congr 2
  rw [Nat.zero_add, Nat.mul_assoc]

theorem covers_wrapped (H W off e : Nat) :
    Mat.covers { rows := H, cols := W, type := CV_32FC1, data := Ptr.input off } e ↔
      off ≤ e ∧ e < off + H * W := by
  simp [Mat.covers]

/-- C10: on an input layer with `C` channels, height `H` and width `W`,
`WrapInputLayer` returns after appending exactly `C` headers to the vector; the `i`-th
appended header is an `H` x `W` 32-bit float view starting at element `i*W*H` of the
input buffer; two different appended views share no element, the appended views cover
exactly the elements below `C*W*H`, and the first one starts at the first element. -/
theorem C10_wrap_partitions_input_buffer (input_layer : Blob) (C H W : Nat) (chs : List Mat)
    (hc : input_layer.legacyShape 1 = some C) (hh : input_layer.legacyShape 2 = some H)
    (hw : input_layer.legacyShape 3 = some W) :
    ∃ views, WrapInputLayer input_layer chs = (Status.returned, chs ++ views) ∧
      views.length = C ∧
      (∀ i, i < C → views[i]? =
        some { rows := H, cols := W, type := CV_32FC1, data := Ptr.input (i * W * H) }) ∧
      (∀ (i j : Nat) (v u : Mat) (e : Nat), i < j → views[i]? = some v → views[j]? = some u →
        ¬ (v.covers e ∧ u.covers e)) ∧
      (∀ e, e < C * W * H ↔ ∃ v, v ∈ views ∧ v.covers e) ∧
      (0 < C → ∃ v, views[0]? = some v ∧ v.data = Ptr.input 0) := by
  refine ⟨_, WrapInputLayer_eq input_layer C H W chs hc hh hw, by simp, ?_, ?_, ?_, ?_⟩
  · intro i hi
    simp [List.getElem?_map, List.getElem?_range, hi]
  · intro i j v u e hij hv hu
    have hj : j < C := by
      by_contra hn
      rw [List.getElem?_eq_none_iff.mpr (by simp; omega)] at hu
      exact absurd hu (by simp)
    have hi : i < C := by omega
    simp only [List.getElem?_map, List.getElem?_range, hi, hj, if_true, Option.map_some',
      Option.some.injEq] at hv hu
    subst hv; subst hu
    rw [covers_wrapped, covers_wrapped]
    rintro ⟨⟨_, a2⟩, ⟨b1, _⟩⟩
    have h1 : (i + 1) * (W * H) ≤ j * (W * H) := Nat.mul_le_mul_right _ hij
    have e1 : (i + 1) * (W * H) = i * W * H + H * W := by ring
    have e2 : j * (W * H) = j * W * H := by ring
    omega
  · intro e
    constructor
    · intro he
      have hn : 0 < W * H := by
        rcases Nat.eq_zero_or_pos (W * H) with h | h
        · rw [Nat.mul_assoc, h] at he; simp at he
        · exact h
      have hlt : e / (W * H) < C := by
        rw [Nat.div_lt_iff_lt_mul hn, ← Nat.mul_assoc]; exact he
      refine ⟨{ rows := H, cols := W, type := CV_32FC1,
                data := Ptr.input (e / (W * H) * W * H) }, ?_, ?_⟩
      · exact List.mem_map.mpr ⟨e / (W * H), List.mem_range.mpr hlt, rfl⟩
      · rw [covers_wrapped]
        have d := Nat.div_add_mod e (W * H)
        have m := Nat.mod_lt e hn
        have e1 : e / (W * H) * W * H = W * H * (e / (W * H)) := by ring
        have e2 : H * W = W * H := Nat.mul_comm _ _
        omega
    · rintro ⟨v, hv, hcov⟩
      obtain ⟨i, hi, rfl⟩ := List.mem_map.mp hv
      rw [covers_wrapped] at hcov
      have hi2 : i < C := List.mem_range.mp hi
      have h1 : (i + 1) * (W * H) ≤ C * (W * H) := Nat.mul_le_mul_right _ hi2
      have e1 : (i + 1) * (W * H) = i * W * H + H * W := by ring
      have e2 : C * (W * H) = C * W * H := by ring
      omega
  · intro hC
    refine ⟨{ rows := H, cols := W, type := CV_32FC1, data := Ptr.input (0 * W * H) }, ?_, ?_⟩
    · simp [List.getElem?_map, List.getElem?_range, hC]
    · simp

/-- Witness of `C10_wrap_partitions_input_buffer` on a 1 x 2 x 1 x 1 input layer. -/
theorem C10_wrap_partitions_input_buffer_witness :
    (sampleInputLayer.legacyShape 1 = some 2 ∧ sampleInputLayer.legacyShape 2 = some 1 ∧
      sampleInputLayer.legacyShape 3 = some 1) ∧
    ∃ views, WrapInputLayer sampleInputLayer [] = (Status.returned, [] ++ views) ∧
      views.length = 2 ∧
      (∀ i, i < 2 → views[i]? =
        some { rows := 1, cols := 1, type := CV_32FC1, data := Ptr.input (i * 1 * 1) }) ∧
      (∀ (i j : Nat) (v u : Mat) (e : Nat), i < j → views[i]? = some v → views[j]? = some u →
        ¬ (v.covers e ∧ u.covers e)) ∧
      (∀ e, e < 2 * 1 * 1 ↔ ∃ v, v ∈ views ∧ v.covers e) ∧
      (0 < 2 → ∃ v, views[0]? = some v ∧ v.data = Ptr.input 0) :=
  ⟨⟨rfl, rfl, rfl⟩, C10_wrap_partitions_input_buffer sampleInputLayer 2 1 1 [] rfl rfl rfl⟩

/-! ## PreProcess -/

theorem writeAt_getElem? (mem : List ℚ) (off : Nat) (xs : List ℚ) (i : Nat)
    (wf : off + xs.length ≤ mem.length) :
    (writeAt mem off xs)[i]? =
      if off ≤ i ∧ i < off + xs.length then xs[i - off]? else mem[i]? := by
  unfold writeAt
  rw [List.append_assoc, List.getElem?_append, List.getElem?_append]
  simp only [List.length_take, List.getElem?_take, List.getElem?_drop]
  have e : min off mem.length = off := by omega
  rw [e]
  by_cases h1 : i < off
  · have : ¬ (off ≤ i ∧ i < off + xs.length) := by omega
    simp [h1, this]
  · simp only [h1, if_false]
    by_cases h2 : i - off < xs.length
    · have : off ≤ i ∧ i < off + xs.length := by omega
      simp [h2, this]
    · have : ¬ (off ≤ i ∧ i < off + xs.length) := by omega
      simp only [h2, this, if_false]
      have e2 : off + xs.length + (i - off - xs.length) = i := by omega
      rw [e2]

theorem writeAt_length (mem : List ℚ) (off : Nat) (xs : List ℚ)
    (wf : off + xs.length ≤ mem.length) : (writeAt mem off xs).length = mem.length := by
  simp [writeAt]
  omega

theorem region_writeAt_self (mem : List ℚ) (off : Nat) (xs : List ℚ)
    (wf : off + xs.length ≤ mem.length) : region (writeAt mem off xs) off xs.length = xs := by
  apply List.ext_getElem?
  intro j
  rw [region_getElem?, writeAt_getElem? mem off xs _ wf]
  by_cases hj : j < xs.length
  · have : off ≤ off + j ∧ off + j < off + xs.length := by omega
    simp [hj, this]
  · simp only [hj, if_false]
    exact (List.getElem?_eq_none_iff.mpr (by omega)).symm

theorem region_writeAt_of_disjoint (mem : List ℚ) (off : Nat) (xs : List ℚ) (q n : Nat)
    (wf : off + xs.length ≤ mem.length) (hd : q + n ≤ off ∨ off + xs.length ≤ q) :
    region (writeAt mem off xs) q n = region mem q n := by
  apply List.ext_getElem?
  intro j
  rw [region_getElem?, region_getElem?, writeAt_getElem? mem off xs _ wf]
  by_cases hj : j < n
  · have : ¬ (off ≤ q + j ∧ q + j < off + xs.length) := by omega
    simp [hj, this]
  · simp [hj]

/-- C4: for two single-channel 32-bit float images whose size equals `input_geometry_`
(a non-empty geometry) and the headers `WrapInputLayer` made over a two-channel input
blob, neither image is resized, `PreProcess` returns (the aliasing `CHECK` passes), the
headers still view the input buffer, nothing is allocated, and afterwards plane 0 of the
input buffer holds the depth image pixel for pixel and plane 1 the height image. -/
theorem C4_preprocess_fills_depth_then_height (interp : Img → Size → List ℚ)
    (input_layer : Blob) (allocated : List (List ℚ)) (H W : Nat)
    (in_depth_image in_height_image : Img)
    (hc : input_layer.legacyShape 1 = some 2) (hh : input_layer.legacyShape 2 = some H)
    (hw : input_layer.legacyShape 3 = some W) (hH : 0 < H) (hW : 0 < W)
    (hbuf : 2 * (H * W) ≤ input_layer.data.length)
    (dr : in_depth_image.rows = H) (dc : in_depth_image.cols = W)
    (dt : in_depth_image.type = CV_32FC1) (dl : in_depth_image.pixels.length = H * W)
    (er : in_height_image.rows = H) (ec : in_height_image.cols = W)
    (et : in_height_image.type = CV_32FC1) (el : in_height_image.pixels.length = H * W) :
    fitToGeometry interp { width := W, height := H } in_depth_image = some in_depth_image ∧
    fitToGeometry interp { width := W, height := H } in_height_image = some in_height_image ∧
    (PreProcess interp { width := W, height := H } in_depth_image in_height_image
      { in_out_channels := (WrapInputLayer input_layer []).2
        memory := { input := input_layer.data, allocated := allocated } }).1
      = Status.returned ∧
    (PreProcess interp { width := W, height := H } in_depth_image in_height_image
      { in_out_channels := (WrapInputLayer input_layer []).2
        memory := { input := input_layer.data, allocated := allocated } }).2.in_out_channels
      = (WrapInputLayer input_layer []).2 ∧
    (PreProcess interp { width := W, height := H } in_depth_image in_height_image
      { in_out_channels := (WrapInputLayer input_layer []).2
        memory := { input := input_layer.data, allocated := allocated } }).2.memory.allocated
      = allocated ∧
    rawChannel (PreProcess interp { width := W, height := H } in_depth_image in_height_image
      { in_out_channels := (WrapInputLayer input_layer []).2
        memory := { input := input_layer.data, allocated := allocated } }).2.memory.input
      W H 0 = in_depth_image.pixels ∧
    rawChannel (PreProcess interp { width := W, height := H } in_depth_image in_height_image
      { in_out_channels := (WrapInputLayer input_layer []).2
        memory := { input := input_layer.data, allocated := allocated } }).2.memory.input
      W H 1 = in_height_image.pixels := by
  have hfd : fitToGeometry interp { width := W, height := H } in_depth_image
      = some in_depth_image := by
    simp [fitToGeometry, dr, dc]
  have hfe : fitToGeometry interp { width := W, height := H } in_height_image
      = some in_height_image := by
    simp [fitToGeometry, er, ec]
  have hwrap : (WrapInputLayer input_layer []).2 =
      [{ rows := H, cols := W, type := CV_32FC1, data := Ptr.input 0 },
       { rows := H, cols := W, type := CV_32FC1, data := Ptr.input (W * H) }] := by
    rw [WrapInputLayer_eq input_layer 2 H W [] hc hh hw]
    simp [List.range_succ_eq_map]
  have hH0 : H ≠ 0 := by omega
  have hW0 : W ≠ 0 := by omega
  have hrun : PreProcess interp { width := W, height := H } in_depth_image in_height_image
      { in_out_channels := (WrapInputLayer input_layer []).2
        memory := { input := input_layer.data, allocated := allocated } } =
      (Status.returned,
        { in_out_channels := (WrapInputLayer input_layer []).2
          memory :=
            { input := writeAt (writeAt input_layer.data 0 in_depth_image.pixels) (W * H)
                in_height_image.pixels
              allocated := allocated } }) := by
    unfold PreProcess
    rw [hfd, hfe, hwrap]
    simp [copyTo, dr, dc, dt, er, ec, et, hH0, hW0]
  rw [hrun]
  have e : W * H = H * W := Nat.mul_comm _ _
  have w1 : 0 + in_depth_image.pixels.length ≤ input_layer.data.length := by omega
  have l1 := writeAt_length input_layer.data 0 in_depth_image.pixels w1
  have w2 : W * H + in_height_image.pixels.length
      ≤ (writeAt input_layer.data 0 in_depth_image.pixels).length := by omega
  refine ⟨hfd, hfe, rfl, rfl, rfl, ?_, ?_⟩
  · show region _ (0 * (H * W)) (H * W) = _
    rw [region_writeAt_of_disjoint _ _ _ _ _ w2 (Or.inl (by omega)), Nat.zero_mul, ← dl]
    exact region_writeAt_self _ 0 _ w1
  · show region _ (1 * (H * W)) (H * W) = _
    rw [Nat.one_mul, ← e]
    have := region_writeAt_self _ (W * H) in_height_image.pixels w2
    rw [el, ← e] at this
    exact this


/-- Witness of `C4_preprocess_fills_depth_then_height` on a 1 x 2 x 1 x 1 input layer. -/
theorem C4_preprocess_fills_depth_then_height_witness :
    (sampleInputLayer.legacyShape 1 = some 2 ∧ sampleInputLayer.legacyShape 2 = some 1 ∧
      sampleInputLayer.legacyShape 3 = some 1 ∧ 2 * (1 * 1) ≤ sampleInputLayer.data.length ∧
      sampleDepth.type = CV_32FC1 ∧ sampleHeight.type = CV_32FC1) ∧
    (PreProcess (fun _ _ => []) { width := 1, height := 1 } sampleDepth sampleHeight
      { in_out_channels := (WrapInputLayer sampleInputLayer []).2
        memory := { input := sampleInputLayer.data, allocated := [] } }).1
      = Status.returned :=
  ⟨⟨rfl, rfl, rfl, by decide, rfl, rfl⟩,
    (C4_preprocess_fills_depth_then_height (fun _ _ => []) sampleInputLayer [] 1 1
      sampleDepth sampleHeight rfl rfl rfl (by decide) (by decide) (by decide)
      rfl rfl rfl rfl rfl rfl rfl rfl).2.2.1⟩

/-- The aliasing `CHECK` does guard the depth channel: whenever `PreProcess` returns,
header 0 points at the first element of the input buffer. -/
theorem preprocess_returned_depth_aliased (interp : Img → Size → List ℚ) (g : Size)
    (d e : Img) (s : PreState) (hret : (PreProcess interp g d e s).1 = Status.returned) :
    ∃ c, (PreProcess interp g d e s).2.in_out_channels[0]? = some c ∧ c.data = Ptr.input 0 := by
  unfold PreProcess at hret ⊢
  cases h1 : fitToGeometry interp g d with
  | none => simp [h1] at hret
  | some dr =>
    cases h2 : fitToGeometry interp g e with
    | none => simp [h1, h2] at hret
    | some er =>
      cases h3 : s.in_out_channels[0]? with
      | none => simp [h1, h2, h3] at hret
      | some c0 =>
        simp only [h1, h2, h3] at hret ⊢
        cases h4 : (s.in_out_channels.set 0 (copyTo dr c0 s.memory).1)[1]? with
        | none => simp [h4] at hret
        | some c1 =>
          simp only [h4] at hret ⊢
          cases h5 : ((s.in_out_channels.set 0 (copyTo dr c0 s.memory).1).set 1
              (copyTo er c1 (copyTo dr c0 s.memory).2).1)[0]? with
          | none => simp [h5] at hret
          | some ck =>
            simp only [h5] at hret ⊢
            by_cases h6 : ck.data = Ptr.input 0
            · simp only [h6, if_true]
              exact ⟨ck, h5, h6⟩
            · simp [h6] at hret

/-- C5, the code at the failing input: the depth image is a 32-bit float image of the
input size and the height image an 8-bit image of the input size. `PreProcess` returns
normally although header 1 now points at a newly allocated buffer holding the height
pixel 7, and plane 1 of the input buffer still holds its old value 0. -/
theorem C5_height_channel_unchecked :
    PreProcess (fun _ _ => []) { width := 1, height := 1 } sampleDepth byteHeight samplePreState
      = (Status.returned,
          { in_out_channels :=
              [{ rows := 1, cols := 1, type := CV_32FC1, data := Ptr.input 0 },
               { rows := 1, cols := 1, type := CV_8UC1, data := Ptr.fresh 0 }]
            memory := { input := [3, 0], allocated := [[7]] } }) := by
  decide

/-! ## The comparison constant of the library -/

/-- With a positive comparison constant, as in OpenCV's float code, a plane whose range
does not exceed the constant is normalised to zeros like a constant plane. -/
theorem normScore_zero_of_small_range (cutoff : ℚ) (data : List ℚ) (W H k h w : Nat)
    (hk : k < 4) (wf : 4 * (H * W) ≤ data.length) (hh : h < H) (hw : w < W)
    (hr : listMax (rawChannel data W H k) - listMin (rawChannel data W H k) ≤ cutoff) :
    normScore cutoff data W H k h w = 0 := by
  rw [normScore_eq cutoff data W H k h w hk wf hh hw]
  simp [not_lt.mpr hr]

/-! ## The colour function with the range guard -/

theorem tiny_bgr :
    (bgrImage (channelLoop DBL_EPSILON 2 1 4 0 tinyObjectness.data []).1
      (channelLoop DBL_EPSILON 2 1 4 0 tinyObjectness.data []).2 2 1 (1 / 2)).px
      = [[black, black]] := by
  simp [tinyObjectness, channelLoop, normalizeInPlace, region, CnnLidar.normalize, listMin,
    listMax, bgrImage, channelAt, classColour, List.range, List.range.loop, DBL_EPSILON]
  norm_num [black]

theorem tiny_out :
    (GetNetworkResults DBL_EPSILON (1 / 2) tinyMachine).2.out_objectness_image.px
      = [[black, black]] := by
  rw [GetNetworkResults_eq DBL_EPSILON (1 / 2) tinyMachine sampleBoxes tinyObjectness 1 2
    rfl rfl rfl rfl rfl rfl]
  simp only [CnnLidar.flip, tiny_bgr]
  rfl

theorem normScore_eq_guarded (data : List ℚ) (W H k h w : Nat) (hk : k < 4)
    (wf : 4 * (H * W) ≤ data.length) (hh : h < H) (hw : w < W) :
    normScore DBL_EPSILON data W H k h w =
      guardedMinMaxScore (rawChannel data W H k) (rawScore data W H k h w) :=
  normScore_eq DBL_EPSILON data W H k h w hk wf hh hw

/-- C6 refuted as stated: on an objectness blob whose bike channel is `0, 2^-53`, with
threshold 1/2, the colour the code computes at position `(0, 1)` before the flip is black
(the returned image is black at the flipped position `(0, 0)`), while the claimed rule
gives blue there: the claimed normalised bike score is `(2^-53 - 0) / (2^-53 - 0) = 1`,
but `cv::normalize` maps a channel of range `2^-53 ≤ DBL_EPSILON` to zeros. -/
theorem C6_counterexample :
    (bgrImage (channelLoop DBL_EPSILON 2 1 4 0 tinyObjectness.data []).1
      (channelLoop DBL_EPSILON 2 1 4 0 tinyObjectness.data []).2 2 1 (1 / 2)).at? 0 1
      = some black ∧
    (GetNetworkResults DBL_EPSILON (1 / 2) tinyMachine).2.out_objectness_image.at? 0 0
      = some black ∧
    specColour
      (minMaxScore (rawChannel tinyObjectness.data 2 1 1) (rawScore tinyObjectness.data 2 1 1 0 1))
      (minMaxScore (rawChannel tinyObjectness.data 2 1 2) (rawScore tinyObjectness.data 2 1 2 0 1))
      (minMaxScore (rawChannel tinyObjectness.data 2 1 3) (rawScore tinyObjectness.data 2 1 3 0 1))
      (1 / 2) = blue ∧
    black ≠ blue := by
  refine ⟨?_, ?_, ?_, by decide⟩
  · simp only [Mat8UC3.at?, tiny_bgr]; rfl
  · simp only [Mat8UC3.at?, tiny_out]; rfl
  · simp [specColour, minMaxScore, rawChannel, rawScore, region, tinyObjectness, listMin,
      listMax]
    norm_num

/-- C6 amended: with rational scores, the image before the flip has at `(h, w)` the
colour blue if the normalised bike score there is above the threshold, otherwise green
if the normalised person score is, otherwise red if the normalised car score is,
otherwise black, where a channel is normalised over its own `H * W` values as
`(x - min) / (max - min)` when `max - min > DBL_EPSILON` and to 0 otherwise; the returned
image is the flip of that image. -/
theorem C6_colour_function_with_range_guard (t : ℚ) (s : Machine) (boxes obj : Blob)
    (H W : Nat)
    (h0 : s.output_blobs[0]? = some boxes) (h1 : s.output_blobs[1]? = some obj)
    (hb : boxes.shapeAt 1 = some 24) (ho1 : obj.shapeAt 1 = some 4)
    (ho2 : obj.shapeAt 2 = some H) (ho3 : obj.shapeAt 3 = some W)
    (wf : 4 * (H * W) ≤ obj.data.length) :
    (GetNetworkResults DBL_EPSILON t s).2.out_objectness_image =
      CnnLidar.flip (bgrImage (channelLoop DBL_EPSILON W H 4 0 obj.data []).1
        (channelLoop DBL_EPSILON W H 4 0 obj.data []).2 W H t) ∧
    ∀ h w, h < H → w < W →
      (bgrImage (channelLoop DBL_EPSILON W H 4 0 obj.data []).1
          (channelLoop DBL_EPSILON W H 4 0 obj.data []).2 W H t).at? h w =
        some (specColour
          (guardedMinMaxScore (rawChannel obj.data W H 1) (rawScore obj.data W H 1 h w))
          (guardedMinMaxScore (rawChannel obj.data W H 2) (rawScore obj.data W H 2 h w))
          (guardedMinMaxScore (rawChannel obj.data W H 3) (rawScore obj.data W H 3 h w)) t) := by
  refine ⟨?_, ?_⟩
  · rw [GetNetworkResults_eq DBL_EPSILON t s boxes obj H W h0 h1 hb ho1 ho2 ho3]
  · intro h w hh hw
    rw [bgrImage_at? _ _ W H t h w hh hw,
      channelAt_loop DBL_EPSILON obj.data W H 1 h w (by omega) hh hw,
      channelAt_loop DBL_EPSILON obj.data W H 2 h w (by omega) hh hw,
      channelAt_loop DBL_EPSILON obj.data W H 3 h w (by omega) hh hw,
      normScore_eq_guarded obj.data W H 1 h w (by omega) wf hh hw,
      normScore_eq_guarded obj.data W H 2 h w (by omega) wf hh hw,
      normScore_eq_guarded obj.data W H 3 h w (by omega) wf hh hw,
      classColour_eq_specColour]

/-- Witness of `C6_colour_function_with_range_guard` on the blob with the bike channel
`0, 2^-53`. -/
theorem C6_colour_function_with_range_guard_witness :
    (tinyMachine.output_blobs[0]? = some sampleBoxes ∧
      tinyMachine.output_blobs[1]? = some tinyObjectness ∧
      sampleBoxes.shapeAt 1 = some 24 ∧ tinyObjectness.shapeAt 1 = some 4 ∧
      tinyObjectness.shapeAt 2 = some 1 ∧ tinyObjectness.shapeAt 3 = some 2 ∧
      4 * (1 * 2) ≤ tinyObjectness.data.length) ∧
    ∀ h w, h < 1 → w < 2 →
      (bgrImage (channelLoop DBL_EPSILON 2 1 4 0 tinyObjectness.data []).1
          (channelLoop DBL_EPSILON 2 1 4 0 tinyObjectness.data []).2 2 1 (1 / 2)).at? h w =
        some (specColour
          (guardedMinMaxScore (rawChannel tinyObjectness.data 2 1 1)
            (rawScore tinyObjectness.data 2 1 1 h w))
          (guardedMinMaxScore (rawChannel tinyObjectness.data 2 1 2)
            (rawScore tinyObjectness.data 2 1 2 h w))
          (guardedMinMaxScore (rawChannel tinyObjectness.data 2 1 3)
            (rawScore tinyObjectness.data 2 1 3 h w)) (1 / 2)) :=
  ⟨⟨rfl, rfl, rfl, rfl, rfl, rfl, by decide⟩,
    (C6_colour_function_with_range_guard (1 / 2) tinyMachine sampleBoxes tinyObjectness 1 2
      rfl rfl rfl rfl rfl rfl (by decide)).2⟩

/-! ## Black images with the range guard, and the overwritten blob -/

/-- C9, the code at the failing input: the call on the sample blobs returns, and
afterwards the objectness blob holds `0, 1, 0, 1, 0, 0, 0, 0` in place of the values
`5, 7, 0, 1/10, 3/4, 3/4, 1/4, 1/4` the network wrote, so the output blobs are not what
they were before the call (with the library's `DBL_EPSILON` and with the constant 0). -/
theorem C9_objectness_blob_overwritten :
    (GetNetworkResults DBL_EPSILON (1 / 2) sampleMachine).1 = Status.returned ∧
    (GetNetworkResults DBL_EPSILON (1 / 2) sampleMachine).2.output_blobs =
      [sampleBoxes, { shape := [1, 4, 1, 2], data := [0, 1, 0, 1, 0, 0, 0, 0] }] ∧
    (GetNetworkResults 0 (1 / 2) sampleMachine).2.output_blobs =
      [sampleBoxes, { shape := [1, 4, 1, 2], data := [0, 1, 0, 1, 0, 0, 0, 0] }] ∧
    (GetNetworkResults DBL_EPSILON (1 / 2) sampleMachine).2.output_blobs
      ≠ sampleMachine.output_blobs ∧
    (GetNetworkResults 0 (1 / 2) sampleMachine).2.output_blobs ≠ sampleMachine.output_blobs := by
  have e0 := sample_blob_after 0 (by norm_num) (le_refl 0)
  have e1 := sample_blob_after DBL_EPSILON (by norm_num [DBL_EPSILON])
    (by norm_num [DBL_EPSILON])
  have ne : ([sampleBoxes, { shape := [1, 4, 1, 2], data := [0, 1, 0, 1, 0, 0, 0, 0] }] :
      List Blob) ≠ sampleMachine.output_blobs := by
    simp [sampleMachine, sampleObjectness]
  refine ⟨?_, e1, e0, ?_, ?_⟩
  · rw [GetNetworkResults_eq DBL_EPSILON (1 / 2) sampleMachine sampleBoxes sampleObjectness 1 2
      rfl rfl rfl rfl rfl rfl]
  · rw [e1]; exact ne
  · rw [e0]; exact ne

end CnnLidar
